import Mathlib

/-!
Verification of the keephy_search service (src/index.js, src/models/SearchIndex.js).

The service forwards full-text search, indexing and analytics queries to a
document store.  We shallowly embed the query-composition logic: a stored
document becomes a `SearchRecord`, the store becomes a `List SearchRecord`,
and the collaborator-supplied text-match predicate and relevance score become
explicit function parameters (`tm`, `scoreOf`).  The store sort
(`.sort(sortObject)`) is modelled as sorting the filtered list by the
lexicographic comparator that the sort object denotes; `populate` and `lean`
are response-shaping steps with no effect on the properties proved here and
are not modelled.  JavaScript `parseInt` is modelled by `parseIntJS`, with
`none` standing for `NaN`.
-/

namespace Keephy

/-- A stored search-index document (schema of `SearchIndex.js`).
`rating`, `sentiment`, `language` model the `metadata` sub-document; the
relevance score is collaborator-computed and not stored, so it enters as a
function parameter where needed.  Timestamps are naturals. -/
structure SearchRecord where
  _id : Nat
  businessId : String
  franchiseId : Option String := none
  contentType : String
  contentId : Nat
  title : String
  content : String
  tags : List String := []
  categories : List String := []
  rating : Option Int := none
  sentiment : Option String := none
  language : Option String := some "en"
  isActive : Bool := true
  indexedAt : Nat := 0
  createdAt : Nat := 0
  updatedAt : Nat := 0
  deriving Repr, DecidableEq

/-- JavaScript number that may be `NaN` (`none`). -/
abbrev JSNum := Option Int

/-- JavaScript `parseInt` (radix 10): skip leading whitespace, optional sign,
longest digit prefix; `none` models `NaN` when no digit is found. -/
def parseIntJS (s : String) : JSNum :=
  let cs := s.data.dropWhile (fun c => c = ' ' || c = '\t' || c = '\n' || c = '\r')
  let sign : Int := match cs with
    | '-' :: _ => -1
    | _ => 1
  let cs2 := match cs with
    | '-' :: rest => rest
    | '+' :: rest => rest
    | _ => cs
  let digits := cs2.takeWhile Char.isDigit
  if digits.isEmpty then none
  else some (sign * (digits.foldl (fun acc c => acc * 10 + (c.toNat - '0'.toNat)) 0 : Nat))

/-- JavaScript truthiness of an optional string: `undefined` and `""` are falsy. -/
def truthy : Option String → Bool
  | none => false
  | some s => !(s == "")

/-- Fields that the handlers put in a sort object. -/
inductive SField
  | score
  | metadataRating
  | fieldIndexedAt
  deriving Repr, DecidableEq

/-- A sort object: field paths with directions (`-1` descending, `1` ascending);
`score` stands for `{ $meta: textScore }`, which orders by descending score. -/
abbrev SortSpec := List (SField × Int)

/-- The BSON value a sort field reads from a record.  A missing
`metadata.rating` is `none`; BSON orders missing/null below all numbers. -/
def fieldVal (scoreOf : SearchRecord → Int) : SField → SearchRecord → Option Int
  | .score, r => some (scoreOf r)
  | .metadataRating, r => r.rating
  | .fieldIndexedAt, r => some (r.indexedAt : Int)

/-- Strict BSON order on optional numbers: missing sorts below every number. -/
def optLt : Option Int → Option Int → Bool
  | none, some _ => true
  | none, none => false
  | some _, none => false
  | some a, some b => decide (a < b)

/-- Lexicographic "comes no later than" comparator denoted by a sort object:
equal keys defer to the remaining keys, a descending direction reverses the
strict order. -/
def recordLe (scoreOf : SearchRecord → Int) : SortSpec → SearchRecord → SearchRecord → Bool
  | [], _, _ => true
  | (f, d) :: rest, r1, r2 =>
    let a := fieldVal scoreOf f r1
    let b := fieldVal scoreOf f r2
    if a = b then recordLe scoreOf rest r1 r2
    else if d < 0 then optLt b a else optLt a b

/-- The options object consumed by `searchIndexSchema.statics.search`.
`limit`/`offset`: outer `none` = key absent (destructuring default applies),
`some none` = `NaN`, `some (some n)` = the integer `n`. -/
structure SearchOptions where
  businessId : Option String := none
  franchiseId : Option String := none
  contentType : Option String := none
  tags : Option (List String) := none
  categories : Option (List String) := none
  rating : JSNum := none
  sentiment : Option String := none
  language : Option String := none
  limit : Option JSNum := none
  offset : Option JSNum := none
  deriving Repr, DecidableEq

/-- The filter part of `statics.search`: each guard mirrors one
`if (x) searchQuery... = x` line, including JS truthiness (`""`, `0`, `NaN`
falsy); `isActive = true` is appended unconditionally at the end. -/
def matchesSearch (tm : String → SearchRecord → Bool)
    (query : Option String) (o : SearchOptions) (r : SearchRecord) : Bool :=
  (if truthy query then tm (query.getD "") r else true)
  && (match o.businessId with
      | some b => if b == "" then true else r.businessId == b
      | none => true)
  && (match o.franchiseId with
      | some f => if f == "" then true else r.franchiseId == some f
      | none => true)
  && (match o.contentType with
      | some ct => if ct == "" then true else r.contentType == ct
      | none => true)
  && (match o.tags with
      | some ts => if ts.length > 0 then ts.any (fun t => r.tags.contains t) else true
      | none => true)
  && (match o.categories with
      | some cs => if cs.length > 0 then cs.any (fun c => r.categories.contains c) else true
      | none => true)
  && (match o.rating with
      | some v => if v == 0 then true else r.rating == some v
      | none => true)
  && (match o.sentiment with
      | some s => if s == "" then true else r.sentiment == some s
      | none => true)
  && (match o.language with
      | some l => if l == "" then true else r.language == some l
      | none => true)
  && r.isActive

/-- Pagination: in `.sort(..).limit(limit).skip(offset)` the store applies skip before
limit.  The destructuring defaults (`limit = 50`, `offset = 0`) fire when the
key is absent; a `NaN` value (`some none`) is forwarded to the collaborator,
whose behaviour on it we model as a no-op. -/
def applyPagination (limit offset : Option JSNum) (l : List SearchRecord) : List SearchRecord :=
  let off := offset.getD (some 0)
  let lim := limit.getD (some 50)
  let l1 := match off with
    | some n => l.drop n.toNat
    | none => l
  match lim with
  | some n => l1.take n.toNat
  | none => l1

/-- Static `searchIndexSchema.statics.search`: build the filter, run it against the
store, sort by the sort object, paginate.  `populate`/`lean` shape only. -/
def search (tm : String → SearchRecord → Bool) (scoreOf : SearchRecord → Int)
    (db : List SearchRecord) (query : Option String) (o : SearchOptions)
    (sortBy : SortSpec) : List SearchRecord :=
  applyPagination o.limit o.offset
    (List.insertionSort (fun a b => recordLe scoreOf sortBy a b = true)
      (db.filter (matchesSearch tm query o)))

/-- The `sortBy` destructuring default of `statics.search`:
`{ score: { $meta: textScore }, indexedAt: -1 }`. -/
def defaultStaticSort : SortSpec := [(.score, -1), (.fieldIndexedAt, -1)]

/-- Static `searchIndexSchema.statics.searchByContentType`: forwards to `search` with the content type
overriding the options; no `sortBy` key, so the static default applies. -/
def searchByContentType (tm : String → SearchRecord → Bool) (scoreOf : SearchRecord → Int)
    (db : List SearchRecord) (contentType : String) (query : Option String)
    (o : SearchOptions) : List SearchRecord :=
  search tm scoreOf db query { o with contentType := some contentType } defaultStaticSort

/-- Error kinds of section 7 of the design: a missing required parameter is a
ValidationError (HTTP 400), a missing update/delete target a NotFoundError. -/
inductive SError
  | validation
  | notFound
  deriving Repr, DecidableEq

/-- Raw query parameters of `GET /api/search`; every value arrives as an
optional string. -/
structure GetSearchParams where
  q : Option String := none
  businessId : Option String := none
  franchiseId : Option String := none
  contentType : Option String := none
  tags : Option String := none
  categories : Option String := none
  rating : Option String := none
  sentiment : Option String := none
  language : Option String := none
  limit : Option String := none
  offset : Option String := none
  sortBy : Option String := none
  deriving Repr, DecidableEq

/-- The expression `tags ? tags.split(fixed comma) : undefined` of the GET handlers. -/
def splitIfTruthy (v : Option String) : Option (List String) :=
  match v with
  | none => none
  | some s => if s == "" then none else some (s.splitOn ",")

/-- The expression `rating ? parseInt(rating) : undefined`; a falsy raw value gives
`undefined`, and `parseIntJS` already folds `NaN` into `none`. -/
def parseIfTruthy (v : Option String) : JSNum :=
  match v with
  | none => none
  | some s => if s == "" then none else parseIntJS s

/-- The expression `parseInt(limit)` with the destructuring default (`limit = 50`): an absent
key parses the default number, a present key is parsed as given. -/
def parseWithDefault (v : Option String) (dflt : Int) : JSNum :=
  match v with
  | none => some dflt
  | some s => parseIntJS s

/-- The options object the `GET /api/search` handler builds (lines 86-97). -/
def buildGetOptions (p : GetSearchParams) : SearchOptions :=
  { businessId := p.businessId
    franchiseId := p.franchiseId
    contentType := p.contentType
    tags := splitIfTruthy p.tags
    categories := splitIfTruthy p.categories
    rating := parseIfTruthy p.rating
    sentiment := p.sentiment
    language := p.language
    limit := some (parseWithDefault p.limit 50)
    offset := some (parseWithDefault p.offset 0) }

/-- Sort resolution of the GET handler (lines 99-107). -/
def resolveSortGet (sortBy : String) (qTruthy : Bool) : SortSpec :=
  if sortBy == "relevance" && qTruthy then [(.score, -1), (.fieldIndexedAt, -1)]
  else if sortBy == "rating" then [(.metadataRating, -1), (.fieldIndexedAt, -1)]
  else if sortBy == "date" then [(.fieldIndexedAt, -1)]
  else [(.fieldIndexedAt, -1)]

/-- Response envelope of the search routes. -/
structure SearchResponse where
  data : List SearchRecord
  count : Nat
  query : Option String
  filters : SearchOptions
  deriving Repr, DecidableEq

/-- Route `GET /api/search`: reject when both `q` and `businessId` are falsy,
otherwise compose options and sort, query the store, and shape the
envelope (`filters` echoes the composed options). -/
def handleSearchGet (tm : String → SearchRecord → Bool) (scoreOf : SearchRecord → Int)
    (db : List SearchRecord) (p : GetSearchParams) : Except SError SearchResponse :=
  if !truthy p.q && !truthy p.businessId then .error .validation
  else
    let o := buildGetOptions p
    let spec := resolveSortGet (p.sortBy.getD "relevance") (truthy p.q)
    let results := search tm scoreOf db p.q o spec
    .ok { data := results, count := results.length, query := p.q, filters := o }

/-- Raw query parameters of `GET /api/search/:contentType` (no `sortBy`). -/
structure CtSearchParams where
  q : Option String := none
  businessId : Option String := none
  franchiseId : Option String := none
  tags : Option String := none
  categories : Option String := none
  rating : Option String := none
  sentiment : Option String := none
  language : Option String := none
  limit : Option String := none
  offset : Option String := none
  deriving Repr, DecidableEq

/-- The options object of the content-type handler (lines 144-154). -/
def buildCtOptions (p : CtSearchParams) : SearchOptions :=
  { businessId := p.businessId
    franchiseId := p.franchiseId
    tags := splitIfTruthy p.tags
    categories := splitIfTruthy p.categories
    rating := parseIfTruthy p.rating
    sentiment := p.sentiment
    language := p.language
    limit := some (parseWithDefault p.limit 50)
    offset := some (parseWithDefault p.offset 0) }

/-- Envelope of the content-type route. -/
structure CtSearchResponse where
  data : List SearchRecord
  count : Nat
  contentType : String
  query : Option String
  filters : SearchOptions
  deriving Repr, DecidableEq

/-- Route `GET /api/search/:contentType`: composes options and queries the store
directly; the handler performs no `q`/`businessId` validation. -/
def handleSearchByContentType (tm : String → SearchRecord → Bool)
    (scoreOf : SearchRecord → Int) (db : List SearchRecord) (contentType : String)
    (p : CtSearchParams) : Except SError CtSearchResponse :=
  let o := buildCtOptions p
  let results := searchByContentType tm scoreOf db contentType p.q o
  .ok { data := results, count := results.length, contentType := contentType,
        query := p.q, filters := o }

/-- The `sort` object of the advanced-search body; absent members stay
`none`. -/
structure AdvSort where
  field : Option String := none
  order : Option String := none
  deriving Repr, DecidableEq

/-- The `pagination` object of the advanced-search body (JSON numbers). -/
structure AdvPagination where
  limit : Option Int := none
  offset : Option Int := none
  deriving Repr, DecidableEq

/-- Body of `POST /api/search/advanced`.  `filters` is spread into the search
options; an `isActive` member there would be dropped by the destructuring of
`statics.search`, so it has no field here. -/
structure AdvancedBody where
  query : Option String := none
  filters : SearchOptions := {}
  pagination : Option AdvPagination := none
  sort : Option AdvSort := none
  deriving Repr, DecidableEq

/-- Sort resolution of the advanced handler (lines 191-198): `rating` and
`date` honour `order = asc`, everything else falls back to
`{ indexedAt: -1 }`. -/
def resolveSortAdvanced (s : AdvSort) (qTruthy : Bool) : SortSpec :=
  if s.field == some "relevance" && qTruthy then [(.score, -1), (.fieldIndexedAt, -1)]
  else if s.field == some "rating" then
    [(.metadataRating, if s.order == some "asc" then 1 else -1), (.fieldIndexedAt, -1)]
  else if s.field == some "date" then
    [(.fieldIndexedAt, if s.order == some "asc" then 1 else -1)]
  else [(.fieldIndexedAt, -1)]

/-- Envelope of the advanced route (pagination echo elided). -/
structure AdvResponse where
  data : List SearchRecord
  count : Nat
  filters : SearchOptions
  deriving Repr, DecidableEq

/-- Route `POST /api/search/advanced`: defaults `pagination` to `{50, 0}` and
`sort` to `{indexedAt, desc}` when the keys are absent, overlays pagination
on the caller filters, resolves the sort and queries the store.  No
validation is performed. -/
def handleSearchAdvanced (tm : String → SearchRecord → Bool)
    (scoreOf : SearchRecord → Int) (db : List SearchRecord)
    (b : AdvancedBody) : AdvResponse :=
  let pag := b.pagination.getD { limit := some 50, offset := some 0 }
  let o := { b.filters with limit := pag.limit.map some, offset := pag.offset.map some }
  let s := b.sort.getD { field := some "indexedAt", order := some "desc" }
  let spec := resolveSortAdvanced s (truthy b.query)
  let results := search tm scoreOf db b.query o spec
  { data := results, count := results.length, filters := b.filters }

/-!  Write operations (SearchIndex.js methods and index.js handlers). -/

/-- The pre-save middleware (SearchIndex.js lines 133-137): every `save`
stamps `updatedAt` and `indexedAt` with the current time. -/
def preSaveHook (now : Nat) (r : SearchRecord) : SearchRecord :=
  { r with updatedAt := now, indexedAt := now }

/-- Method `methods.addTag`: push the tag only when it is not already present, then
save (which runs the pre-save hook). -/
def addTag (now : Nat) (r : SearchRecord) (tag : String) : SearchRecord :=
  preSaveHook now (if r.tags.contains tag then r else { r with tags := r.tags ++ [tag] })

/-- Method `methods.removeTag`: filter the tag out, then save. -/
def removeTag (now : Nat) (r : SearchRecord) (tag : String) : SearchRecord :=
  preSaveHook now { r with tags := r.tags.filter (fun t => !(t == tag)) }

/-- Body of `POST /api/search/index` (and one element of the bulk body).
`rating`, `sentiment`, `language` model the metadata sub-document. -/
structure CreatePayload where
  businessId : String
  franchiseId : Option String := none
  contentType : String
  contentId : Nat
  title : String
  content : String
  tags : List String := []
  categories : List String := []
  rating : Option Int := none
  sentiment : Option String := none
  language : Option String := none
  deriving Repr, DecidableEq

/-- Document constructed from a payload with the schema defaults applied
(`isActive := true`, `language := en`, timestamp defaults `Date.now`).  The
handler also writes `indexedAt` inside `metadata`, which is not a schema path
and is dropped by the schema; the real `indexedAt` is the top-level one. -/
def mkDoc (now id : Nat) (p : CreatePayload) : SearchRecord :=
  { _id := id
    businessId := p.businessId
    franchiseId := p.franchiseId
    contentType := p.contentType
    contentId := p.contentId
    title := p.title
    content := p.content
    tags := p.tags
    categories := p.categories
    rating := p.rating
    sentiment := p.sentiment
    language := some (p.language.getD "en")
    isActive := true
    indexedAt := now
    createdAt := now
    updatedAt := now }

/-- Route `POST /api/search/index`: build the document and save it; the pre-save
hook stamps `indexedAt`.  Returns the new store and the saved document. -/
def handleIndexCreate (db : List SearchRecord) (now id : Nat)
    (p : CreatePayload) : List SearchRecord × SearchRecord :=
  let saved := preSaveHook now (mkDoc now id p)
  (db ++ [saved], saved)

/-- Body of `PUT /api/search/index/:id`: any subset of the mutable fields;
a caller-supplied `indexedAt` is overridden by the handler spread. -/
structure UpdateData where
  title : Option String := none
  content : Option String := none
  tags : Option (List String) := none
  categories : Option (List String) := none
  rating : Option Int := none
  sentiment : Option String := none
  isActive : Option Bool := none
  indexedAt : Option Nat := none
  deriving Repr, DecidableEq

/-- Apply an update document to a record (the `$set` of
`findByIdAndUpdate`). -/
def applyUpdate (u : UpdateData) (r : SearchRecord) : SearchRecord :=
  { r with
    title := u.title.getD r.title
    content := u.content.getD r.content
    tags := u.tags.getD r.tags
    categories := u.categories.getD r.categories
    rating := match u.rating with
      | some v => some v
      | none => r.rating
    sentiment := match u.sentiment with
      | some v => some v
      | none => r.sentiment
    isActive := u.isActive.getD r.isActive
    indexedAt := u.indexedAt.getD r.indexedAt }

/-- Route `PUT /api/search/index/:id` (lines 273-302): `findByIdAndUpdate` with
`{ ...updateData, indexedAt: new Date() }` and `new: true`; 404 when the id
is absent. -/
def handleIndexUpdate (db : List SearchRecord) (now id : Nat)
    (u : UpdateData) : List SearchRecord × Except SError SearchRecord :=
  match db.find? (fun r => r._id == id) with
  | none => (db, .error .notFound)
  | some r =>
    let r2 := applyUpdate { u with indexedAt := some now } r
    (db.map (fun x => if x._id == id then r2 else x), .ok r2)

/-- Route `POST /api/search/index/bulk` (lines 332-362): reject a missing,
non-array or empty `items` body with a 400 before any store call; otherwise
stamp each item with the current `indexedAt` and insert the batch.  `none`
models a body whose `items` is not an array. -/
def handleBulkIndex (db : List SearchRecord) (now firstId : Nat)
    (items : Option (List CreatePayload)) :
    List SearchRecord × Except SError (List SearchRecord) :=
  match items with
  | none => (db, .error .validation)
  | some l =>
    if l.length = 0 then (db, .error .validation)
    else
      let docs := l.enum.map (fun pr => mkDoc now (firstId + pr.1) pr.2)
      (db ++ docs, .ok docs)

/-!  Aggregation statics (SearchIndex.js lines 206-263) and suggestions. -/

/-- Static `statics.getPopularTags`: match active records of the tenant, unwind the
tags, group counting occurrences, sort by count descending, take the limit. -/
def getPopularTags (db : List SearchRecord) (businessId : String)
    (limit : Int) : List (String × Nat) :=
  let active := db.filter (fun r => r.businessId == businessId && r.isActive)
  let allTags := active.flatMap (fun r => r.tags)
  let grouped := allTags.dedup.map (fun t => (t, allTags.count t))
  (List.insertionSort (fun p q : String × Nat => q.2 ≤ p.2) grouped).take limit.toNat

/-- One group of `statics.getContentStats`. -/
structure ContentStat where
  contentType : String
  count : Nat
  avgRating : Option ℚ
  sentimentBreakdown : List String
  deriving Repr, DecidableEq

/-- Rounding `$round` to two decimal places. -/
def round2 (q : ℚ) : ℚ := (round (q * 100) : ℤ) / 100

/-- Static `statics.getContentStats`: group the active records of the tenant by
content type with count, average rating rounded to two decimals (`$avg`
skips missing ratings and is null on an empty set) and the pushed sentiment
values (`$push` skips missing fields). -/
def getContentStats (db : List SearchRecord) (businessId : String) : List ContentStat :=
  let active := db.filter (fun r => r.businessId == businessId && r.isActive)
  (active.map (fun r => r.contentType)).dedup.map (fun ct =>
    let grp := active.filter (fun r => r.contentType == ct)
    let ratings := grp.filterMap (fun r => r.rating)
    { contentType := ct
      count := grp.length
      avgRating :=
        if ratings.isEmpty then none
        else some (round2 (((ratings.foldl (· + ·) 0 : Int) : ℚ) / (ratings.length : ℚ)))
      sentimentBreakdown := grp.filterMap (fun r => r.sentiment) })

/-- Static `statics.getRecentContent`: active records of the tenant, most recently
indexed first, capped at the limit. -/
def getRecentContent (db : List SearchRecord) (businessId : String)
    (limit : Int) : List SearchRecord :=
  (List.insertionSort
    (fun r1 r2 => recordLe (fun _ => 0) [(.fieldIndexedAt, -1)] r1 r2 = true)
    (db.filter (fun r => r.businessId == businessId && r.isActive))).take limit.toNat

/-- Filter of `statics.getContentByRating`: tenant, rating at least the
minimum (`$gte` does not match a missing rating), active. -/
def byRatingFilter (businessId : String) (minRating : Int) (r : SearchRecord) : Bool :=
  r.businessId == businessId
  && (match r.rating with
      | some v => decide (minRating ≤ v)
      | none => false)
  && r.isActive

/-- Static `statics.getContentByRating`: records at or above the minimum rating,
sorted rating descending then recency, capped at the limit. -/
def getContentByRating (db : List SearchRecord) (businessId : String)
    (minRating limit : Int) : List SearchRecord :=
  (List.insertionSort
    (fun r1 r2 => recordLe (fun _ => 0) [(.metadataRating, -1), (.fieldIndexedAt, -1)] r1 r2 = true)
    (db.filter (byRatingFilter businessId minRating))).take limit.toNat

/-- A projected suggestion (`$project` keeps title, tags, contentType). -/
structure Suggestion where
  title : String
  tags : List String
  contentType : String
  deriving Repr, DecidableEq

/-- Envelope of the suggestions route. -/
structure SuggResponse where
  data : List Suggestion
  count : Nat
  deriving Repr, DecidableEq

/-- The short-circuit guard of the suggestions handler:
`!q || q.length < 2`. -/
def qShort : Option String → Bool
  | none => true
  | some s => s == "" || decide (s.length < 2)

/-- Route `GET /api/search/suggestions` (lines 488-536): return an empty success
envelope without touching the store when the query is falsy or shorter than
two characters; otherwise match the tenant by the cast id, active records
whose title or some tag matches the case-insensitive regex
(`rm`, collaborator-supplied), project, and cap at the parsed limit. -/
def handleSuggestions (rm : String → String → Bool) (db : List SearchRecord)
    (q : Option String) (bid : String) (limit : Int) : SuggResponse :=
  if qShort q then { data := [], count := 0 }
  else
    let qs := q.getD ""
    let matched := db.filter (fun r =>
      r.businessId == bid && r.isActive
      && (rm qs r.title || r.tags.any (fun t => rm qs t)))
    let sugg := (matched.map (fun r =>
      ({ title := r.title, tags := r.tags, contentType := r.contentType } : Suggestion))).take
      limit.toNat
    { data := sugg, count := sugg.length }

/-!  Helper lemmas about the comparator and the query pipeline. -/

theorem optLt_trans {a b c : Option Int} (h1 : optLt a b = true) (h2 : optLt b c = true) :
    optLt a c = true := by
  cases a <;> cases b <;> cases c <;> simp [optLt] at * <;> omega

theorem optLt_self (a : Option Int) : optLt a a = false := by
  cases a <;> simp [optLt]

theorem optLt_total_of_ne {a b : Option Int} (h : a ≠ b) :
    optLt a b = true ∨ optLt b a = true := by
  cases a <;> cases b <;> simp [optLt] at * <;> omega

theorem recordLe_total (scoreOf : SearchRecord → Int) (spec : SortSpec) :
    ∀ r1 r2 : SearchRecord,
      recordLe scoreOf spec r1 r2 = true ∨ recordLe scoreOf spec r2 r1 = true := by
  induction spec with
  | nil => intro r1 r2; exact Or.inl rfl
  | cons hd tl ih =>
    obtain ⟨f, d⟩ := hd
    intro r1 r2
    simp only [recordLe]
    by_cases h : fieldVal scoreOf f r1 = fieldVal scoreOf f r2
    · rw [if_pos h, if_pos h.symm]
      exact ih r1 r2
    · rw [if_neg h, if_neg (Ne.symm h)]
      by_cases hd2 : d < 0
      · rw [if_pos hd2, if_pos hd2]
        exact (optLt_total_of_ne h).symm
      · rw [if_neg hd2, if_neg hd2]
        exact optLt_total_of_ne h

theorem recordLe_trans (scoreOf : SearchRecord → Int) (spec : SortSpec) :
    ∀ r1 r2 r3 : SearchRecord,
      recordLe scoreOf spec r1 r2 = true → recordLe scoreOf spec r2 r3 = true →
      recordLe scoreOf spec r1 r3 = true := by
  induction spec with
  | nil => intro r1 r2 r3 _ _; rfl
  | cons hd tl ih =>
    obtain ⟨f, d⟩ := hd
    intro r1 r2 r3 h12 h23
    simp only [recordLe] at h12 h23 ⊢
    by_cases hab : fieldVal scoreOf f r1 = fieldVal scoreOf f r2
    · by_cases hbc : fieldVal scoreOf f r2 = fieldVal scoreOf f r3
      · rw [if_pos hab] at h12
        rw [if_pos hbc] at h23
        rw [if_pos (hab.trans hbc)]
        exact ih r1 r2 r3 h12 h23
      · rw [if_neg hbc] at h23
        rw [if_neg (show fieldVal scoreOf f r1 ≠ fieldVal scoreOf f r3 by
          rw [hab]; exact hbc), hab]
        exact h23
    · by_cases hbc : fieldVal scoreOf f r2 = fieldVal scoreOf f r3
      · rw [if_neg hab] at h12
        rw [if_neg (show fieldVal scoreOf f r1 ≠ fieldVal scoreOf f r3 by
          rw [← hbc]; exact hab), ← hbc]
        exact h12
      · rw [if_neg hab] at h12
        rw [if_neg hbc] at h23
        by_cases hd2 : d < 0
        · rw [if_pos hd2] at h12 h23
          have hca : optLt (fieldVal scoreOf f r3) (fieldVal scoreOf f r1) = true :=
            optLt_trans h23 h12
          have hne : fieldVal scoreOf f r1 ≠ fieldVal scoreOf f r3 := by
            intro he
            rw [he, optLt_self] at hca
            exact Bool.false_ne_true hca
          rw [if_neg hne, if_pos hd2]
          exact hca
        · rw [if_neg hd2] at h12 h23
          have hac : optLt (fieldVal scoreOf f r1) (fieldVal scoreOf f r3) = true :=
            optLt_trans h12 h23
          have hne : fieldVal scoreOf f r1 ≠ fieldVal scoreOf f r3 := by
            intro he
            rw [he, optLt_self] at hac
            exact Bool.false_ne_true hac
          rw [if_neg hne, if_neg hd2]
          exact hac

theorem sorted_insertionSort_recordLe (scoreOf : SearchRecord → Int) (spec : SortSpec)
    (l : List SearchRecord) :
    List.Sorted (fun a b => recordLe scoreOf spec a b = true)
      (List.insertionSort (fun a b => recordLe scoreOf spec a b = true) l) := by
  haveI : IsTotal SearchRecord (fun a b => recordLe scoreOf spec a b = true) :=
    ⟨fun a b => recordLe_total scoreOf spec a b⟩
  haveI : IsTrans SearchRecord (fun a b => recordLe scoreOf spec a b = true) :=
    ⟨fun a b c => recordLe_trans scoreOf spec a b c⟩
  exact List.sorted_insertionSort _ l

theorem applyPagination_sublist (limit offset : Option JSNum) (l : List SearchRecord) :
    List.Sublist (applyPagination limit offset l) l := by
  simp only [applyPagination]
  cases offset.getD (some 0) with
  | none =>
    cases limit.getD (some 50) with
    | none => exact List.Sublist.refl l
    | some m => exact List.take_sublist _ _
  | some n =>
    cases limit.getD (some 50) with
    | none => exact List.drop_sublist _ _
    | some m => exact (List.take_sublist _ _).trans (List.drop_sublist _ _)

theorem mem_search {tm : String → SearchRecord → Bool} {scoreOf : SearchRecord → Int}
    {db : List SearchRecord} {query : Option String} {o : SearchOptions} {sortBy : SortSpec}
    {r : SearchRecord} (h : r ∈ search tm scoreOf db query o sortBy) :
    r ∈ db ∧ matchesSearch tm query o r = true := by
  have h1 := (applyPagination_sublist o.limit o.offset _).subset h
  have h2 := (List.perm_insertionSort
    (fun a b => recordLe scoreOf sortBy a b = true) _).subset h1
  exact List.mem_filter.mp h2

theorem search_sorted (tm : String → SearchRecord → Bool) (scoreOf : SearchRecord → Int)
    (db : List SearchRecord) (query : Option String) (o : SearchOptions) (sortBy : SortSpec) :
    List.Sorted (fun a b => recordLe scoreOf sortBy a b = true)
      (search tm scoreOf db query o sortBy) :=
  (sorted_insertionSort_recordLe scoreOf sortBy _).sublist
    (applyPagination_sublist o.limit o.offset _)

theorem matchesSearch_isActive {tm : String → SearchRecord → Bool} {query : Option String}
    {o : SearchOptions} {r : SearchRecord} (h : matchesSearch tm query o r = true) :
    r.isActive = true := by
  simp only [matchesSearch, Bool.and_eq_true] at h
  exact h.2

/-- A filter whose predicate entails `isActive` sees only the active part of
the store. -/
theorem filter_through_active (p : SearchRecord → Bool)
    (hp : ∀ r, p r = true → r.isActive = true) (db : List SearchRecord) :
    db.filter p = (db.filter (fun r => r.isActive)).filter p := by
  induction db with
  | nil => rfl
  | cons x xs ih =>
    by_cases hx : p x = true
    · have ha := hp x hx
      simp [List.filter_cons, hx, ha, ih]
    · by_cases ha : x.isActive = true
      · simp [List.filter_cons, hx, ha, ih]
      · simp only [Bool.not_eq_true] at hx ha
        simp [List.filter_cons, hx, ha, ih]

theorem mem_take_insertionSort {rel : SearchRecord → SearchRecord → Prop}
    [DecidableRel rel] {l : List SearchRecord} {n : Nat} {r : SearchRecord}
    (h : r ∈ (List.insertionSort rel l).take n) : r ∈ l :=
  (List.perm_insertionSort rel l).subset ((List.take_sublist n _).subset h)

/-!  Concrete fixtures for witnesses and counterexamples. -/

/-- A text-match predicate that matches everything (collaborator stand-in). -/
def tmTrue : String → SearchRecord → Bool := fun _ _ => true

/-- A constant relevance score (collaborator stand-in). -/
def score0 : SearchRecord → Int := fun _ => 0

/-- A regex-match stand-in that matches everything. -/
def rmTrue : String → String → Bool := fun _ _ => true

/-- An active submission record for tenant B1. -/
def recSub : SearchRecord :=
  { _id := 1, businessId := "B1", contentType := "submission", contentId := 10,
    title := "Great service", content := "Very fast and friendly", tags := ["fast"],
    rating := some 5, indexedAt := 100, createdAt := 100, updatedAt := 100 }

/-- A second record for tenant B1 with rating 3. -/
def recThree : SearchRecord :=
  { _id := 2, businessId := "B1", contentType := "submission", contentId := 11,
    title := "Average service", content := "It was fine", tags := ["slow"],
    rating := some 3, indexedAt := 50, createdAt := 50, updatedAt := 50 }

/-!  Claim theorems. -/

/-- C1 (counterexample): a search call on `GET /api/search/:contentType`
with both the free-text query and `businessId` absent does not fail with a
ValidationError; the query is issued to storage and the stored record is
returned. -/
theorem searchCall_missing_discriminator_counterexample :
    (handleSearchByContentType tmTrue score0 [recSub] "submission" {}).isOk = true
    ∧ (handleSearchByContentType tmTrue score0 [recSub] "submission" {}).toOption.map
        CtSearchResponse.data = some [recSub] := by
  constructor
  · decide
  · decide

/-- C1 (amended): on `GET /api/search` (the global search route) a call with
both `q` and `businessId` absent fails with a ValidationError before any
storage query; the content-type route performs no such check. -/
theorem globalSearch_requires_discriminator (tm : String → SearchRecord → Bool)
    (scoreOf : SearchRecord → Int) (db : List SearchRecord) (p : GetSearchParams)
    (hq : p.q = none) (hb : p.businessId = none) :
    handleSearchGet tm scoreOf db p = .error .validation := by
  simp [handleSearchGet, hq, hb, truthy]

/-- Witness for the amended C1 at a concrete empty request. -/
theorem globalSearch_requires_discriminator_witness :
    handleSearchGet tmTrue score0 [recSub] {} = .error .validation :=
  globalSearch_requires_discriminator tmTrue score0 [recSub] {} rfl rfl

/-- C4 (counterexample): a malformed `limit` (`"abc"`) does not cause a
ValidationError; the call succeeds and the NaN produced by `parseInt` is
passed through into the composed storage-query options (echoed in
`filters`). -/
theorem malformed_limit_counterexample :
    (handleSearchGet tmTrue score0 [] { q := some "coffee", limit := some "abc" }).isOk = true
    ∧ (handleSearchGet tmTrue score0 []
        { q := some "coffee", limit := some "abc" }).toOption.map
        (fun resp => resp.filters.limit) = some (some none) := by
  constructor
  · decide
  · decide

/-- C4 (amended): `limit` and `offset` are parsed with JavaScript `parseInt`
(defaults 50 and 0); whatever `parseInt` yields — including NaN for a
malformed value — is passed through to the storage-query options, and no
ValidationError is ever raised for them. -/
theorem limit_offset_parse_passthrough (tm : String → SearchRecord → Bool)
    (scoreOf : SearchRecord → Int) (db : List SearchRecord) (p : GetSearchParams)
    (h : truthy p.q = true ∨ truthy p.businessId = true) :
    ∃ resp, handleSearchGet tm scoreOf db p = .ok resp
      ∧ resp.filters.limit = some (parseWithDefault p.limit 50)
      ∧ resp.filters.offset = some (parseWithDefault p.offset 0) := by
  have hc : (!truthy p.q && !truthy p.businessId) = false := by
    rcases h with h | h <;> simp [h]
  simp only [handleSearchGet, hc, Bool.false_eq_true, if_false]
  exact ⟨_, rfl, rfl, rfl⟩

/-- Witness for the amended C4: the malformed value `"abc"` flows through as
NaN while the call succeeds. -/
theorem limit_offset_parse_passthrough_witness :
    ∃ resp, handleSearchGet tmTrue score0 []
        { q := some "coffee", limit := some "abc", offset := some "7" } = .ok resp
      ∧ resp.filters.limit = some (parseWithDefault (some "abc") 50)
      ∧ resp.filters.offset = some (parseWithDefault (some "7") 0) :=
  limit_offset_parse_passthrough tmTrue score0 []
    { q := some "coffee", limit := some "abc", offset := some "7" } (Or.inl (by decide))

/-- C5: a bulk-index call whose `items` is not an array (`none`) or is the
empty array fails with a ValidationError and leaves the store untouched. -/
theorem bulkIndex_rejects_empty (db : List SearchRecord) (now firstId : Nat) :
    handleBulkIndex db now firstId none = (db, .error .validation)
    ∧ handleBulkIndex db now firstId (some []) = (db, .error .validation) :=
  ⟨rfl, rfl⟩

/-- C7: `addTag` is idempotent — an already-present tag is not duplicated
(the tag sequence is unchanged), and adding the same tag twice equals adding
it once. -/
theorem addTag_idempotent (r : SearchRecord) (tag : String) (now now2 : Nat) :
    (tag ∈ r.tags → (addTag now r tag).tags = r.tags)
    ∧ addTag now2 (addTag now r tag) tag = addTag now2 r tag := by
  constructor
  · intro h
    simp [addTag, preSaveHook, h]
  · by_cases h : tag ∈ r.tags
    · simp [addTag, preSaveHook, h]
    · simp [addTag, preSaveHook, h, List.mem_append]

/-- Witness for C7 on a concrete record whose tag list already holds the
tag. -/
theorem addTag_idempotent_witness :
    (addTag 7 recSub "fast").tags = recSub.tags
    ∧ addTag 8 (addTag 7 recSub "fast") "fast" = addTag 8 recSub "fast" :=
  ⟨(addTag_idempotent recSub "fast" 7 8).1 (by decide),
   (addTag_idempotent recSub "fast" 7 8).2⟩

/-- C10: a suggestions call whose free-text parameter is absent or shorter
than two characters returns the empty success envelope `{data: [], count: 0}`
for every store content, i.e. without issuing any storage query. -/
theorem suggestions_short_query (rm : String → String → Bool)
    (db : List SearchRecord) (q : Option String) (bid : String) (lim : Int)
    (h : q = none ∨ ∃ s, q = some s ∧ s.length < 2) :
    handleSuggestions rm db q bid lim = { data := [], count := 0 } := by
  have hq : qShort q = true := by
    rcases h with h | ⟨s, rfl, hs⟩
    · simp [h, qShort]
    · simp [qShort, hs]
  simp [handleSuggestions, hq]

/-- Witness for C10: a one-character query on a non-empty store. -/
theorem suggestions_short_query_witness :
    handleSuggestions rmTrue [recSub] (some "a") "B1" 10 = { data := [], count := 0 } :=
  suggestions_short_query rmTrue [recSub] (some "a") "B1" 10
    (Or.inr ⟨"a", rfl, by decide⟩)

theorem getPopularTags_active (db : List SearchRecord) (bi : String) (lim : Int) :
    getPopularTags db bi lim = getPopularTags (db.filter (fun r => r.isActive)) bi lim := by
  unfold getPopularTags
  rw [filter_through_active (fun r => r.businessId == bi && r.isActive)
    (fun r h => by simp only [Bool.and_eq_true] at h; exact h.2) db]

theorem getContentStats_active (db : List SearchRecord) (bi : String) :
    getContentStats db bi = getContentStats (db.filter (fun r => r.isActive)) bi := by
  unfold getContentStats
  rw [filter_through_active (fun r => r.businessId == bi && r.isActive)
    (fun r h => by simp only [Bool.and_eq_true] at h; exact h.2) db]

theorem handleSuggestions_active (rm : String → String → Bool) (db : List SearchRecord)
    (q : Option String) (bid : String) (lim : Int) :
    handleSuggestions rm db q bid lim =
      handleSuggestions rm (db.filter (fun r => r.isActive)) q bid lim := by
  simp only [handleSuggestions]
  rw [filter_through_active
    (fun r => r.businessId == bid && r.isActive
      && (rm (q.getD "") r.title || r.tags.any (fun t => rm (q.getD "") t)))
    (fun r h => by simp only [Bool.and_eq_true] at h; exact h.1.2) db]

/-- C2: inactive records are invisible to every search and listing
operation.  For the record-returning operations every returned record has
`isActive = true`; the aggregations (popular tags, content statistics,
suggestions) compute the same result on the store as on its active part,
because the `isActive = true` predicate is appended to the match
unconditionally. -/
theorem isActive_invariant (tm : String → SearchRecord → Bool)
    (scoreOf : SearchRecord → Int) (rm : String → String → Bool)
    (db : List SearchRecord) (q qs : Option String) (o : SearchOptions)
    (spec : SortSpec) (ct bi bid : String) (mn lim lim2 lim3 lim4 : Int) :
    (∀ r ∈ search tm scoreOf db q o spec, r.isActive = true)
    ∧ (∀ r ∈ searchByContentType tm scoreOf db ct q o, r.isActive = true)
    ∧ getPopularTags db bi lim = getPopularTags (db.filter (fun r => r.isActive)) bi lim
    ∧ getContentStats db bi = getContentStats (db.filter (fun r => r.isActive)) bi
    ∧ (∀ r ∈ getRecentContent db bi lim2, r.isActive = true)
    ∧ (∀ r ∈ getContentByRating db bi mn lim3, r.isActive = true)
    ∧ handleSuggestions rm db qs bid lim4 =
        handleSuggestions rm (db.filter (fun r => r.isActive)) qs bid lim4 := by
  refine ⟨?_, ?_, getPopularTags_active db bi lim, getContentStats_active db bi,
    ?_, ?_, handleSuggestions_active rm db qs bid lim4⟩
  · intro r hr
    exact matchesSearch_isActive (mem_search hr).2
  · intro r hr
    exact matchesSearch_isActive (mem_search hr).2
  · intro r hr
    have h2 := List.mem_filter.mp (mem_take_insertionSort hr)
    simp only [Bool.and_eq_true] at h2
    exact h2.2.2
  · intro r hr
    have h2 := List.mem_filter.mp (mem_take_insertionSort hr)
    have h3 := h2.2
    simp only [byRatingFilter, Bool.and_eq_true] at h3
    exact h3.2

/-- Witness for C2 at a concrete store holding one active record. -/
theorem isActive_invariant_witness :
    recSub.isActive = true ∧ recSub.isActive = true :=
  ⟨(isActive_invariant tmTrue score0 rmTrue [recSub] none none {} [] "submission"
      "B1" "B1" 4 20 20 20 10).1 recSub (by decide),
   (isActive_invariant tmTrue score0 rmTrue [recSub] none none {} [] "submission"
      "B1" "B1" 4 20 20 20 10).2.2.2.2.1 recSub (by decide)⟩

/-- Payload used by the write-operation witnesses. -/
def payloadW : CreatePayload :=
  { businessId := "B1", contentType := "submission", contentId := 12,
    title := "t", content := "c" }

/-- C6: every write operation refreshes the affected records `indexedAt` to
the current time — the create handler via the pre-save hook, the update
handler and the bulk handler via their explicit stamp, and the tag add and
remove re-index operations via the pre-save hook run by `save`. -/
theorem indexedAt_refreshed (db : List SearchRecord) (now id fid : Nat)
    (p : CreatePayload) (u : UpdateData) (items : Option (List CreatePayload))
    (r : SearchRecord) (tag : String) :
    (handleIndexCreate db now id p).2.indexedAt = now
    ∧ (∀ r2, (handleIndexUpdate db now id u).2 = .ok r2 → r2.indexedAt = now)
    ∧ (∀ docs, (handleBulkIndex db now fid items).2 = .ok docs →
        ∀ d ∈ docs, d.indexedAt = now)
    ∧ (addTag now r tag).indexedAt = now
    ∧ (removeTag now r tag).indexedAt = now := by
  refine ⟨rfl, ?_, ?_, ?_, rfl⟩
  · intro r2 h
    unfold handleIndexUpdate at h
    cases hf : db.find? (fun x => x._id == id) with
    | none => rw [hf] at h; exact Except.noConfusion h
    | some r0 =>
      rw [hf] at h
      have h2 := Except.ok.inj h
      rw [← h2]
      simp [applyUpdate]
  · intro docs h d hd
    cases items with
    | none => simp [handleBulkIndex] at h
    | some l =>
      by_cases hl : l.length = 0
      · simp [handleBulkIndex, hl] at h
      · simp [handleBulkIndex, hl] at h
        rw [← h] at hd
        obtain ⟨pr, _, hpr⟩ := List.mem_map.mp hd
        rw [← hpr]
        rfl
  · by_cases hc : r.tags.contains tag = true <;> simp [addTag, preSaveHook]

/-- Result of the concrete update used by the C6 witness. -/
def updRec : SearchRecord :=
  match (handleIndexUpdate [recSub] 77 1 {}).2 with
  | .ok r => r
  | .error _ => recSub

/-- Witness for C6: concrete create, update, bulk, add-tag and remove-tag
calls all stamp `indexedAt = 77`. -/
theorem indexedAt_refreshed_witness :
    (handleIndexCreate [recSub] 77 3 payloadW).2.indexedAt = 77
    ∧ updRec.indexedAt = 77
    ∧ (mkDoc 77 5 payloadW).indexedAt = 77
    ∧ (addTag 77 recSub "new").indexedAt = 77
    ∧ (removeTag 77 recSub "fast").indexedAt = 77 :=
  ⟨(indexedAt_refreshed [recSub] 77 1 5 payloadW {} (some [payloadW]) recSub "new").1,
   (indexedAt_refreshed [recSub] 77 1 5 payloadW {} (some [payloadW]) recSub "new").2.1
     updRec rfl,
   (indexedAt_refreshed [recSub] 77 1 5 payloadW {} (some [payloadW]) recSub "new").2.2.1
     [mkDoc 77 5 payloadW] rfl (mkDoc 77 5 payloadW) (List.mem_singleton.mpr rfl),
   (indexedAt_refreshed [recSub] 77 1 5 payloadW {} (some [payloadW]) recSub "new").2.2.2.1,
   (indexedAt_refreshed [recSub] 77 1 5 payloadW {} (some [payloadW]) recSub "fast").2.2.2.2⟩

/-- Result order demanded for `sortBy = rating` descending: strictly higher
rating first (missing ratings ordered below all numbers, as in BSON), ties
broken by `indexedAt` descending. -/
def RatingTieDesc (r1 r2 : SearchRecord) : Prop :=
  optLt r2.rating r1.rating = true
  ∨ (r1.rating = r2.rating ∧ r2.indexedAt ≤ r1.indexedAt)

/-- Result order for `sortBy = rating` ascending, ties still broken by
`indexedAt` descending. -/
def RatingTieAsc (r1 r2 : SearchRecord) : Prop :=
  optLt r1.rating r2.rating = true
  ∨ (r1.rating = r2.rating ∧ r2.indexedAt ≤ r1.indexedAt)

theorem recordLe_ratingDesc {scoreOf : SearchRecord → Int} {r1 r2 : SearchRecord}
    (h : recordLe scoreOf [(.metadataRating, -1), (.fieldIndexedAt, -1)] r1 r2 = true) :
    RatingTieDesc r1 r2 := by
  simp only [recordLe, fieldVal] at h
  by_cases hr : r1.rating = r2.rating
  · right
    refine ⟨hr, ?_⟩
    rw [if_pos hr] at h
    by_cases hi : (some (r1.indexedAt : Int)) = (some (r2.indexedAt : Int))
    · simp only [Option.some.injEq, Nat.cast_inj] at hi
      omega
    · rw [if_neg hi, if_pos (by norm_num : (-1 : Int) < 0)] at h
      simp only [optLt, decide_eq_true_eq] at h
      omega
  · left
    rw [if_neg hr, if_pos (by norm_num : (-1 : Int) < 0)] at h
    exact h

theorem recordLe_ratingAsc {scoreOf : SearchRecord → Int} {r1 r2 : SearchRecord}
    (h : recordLe scoreOf [(.metadataRating, 1), (.fieldIndexedAt, -1)] r1 r2 = true) :
    RatingTieAsc r1 r2 := by
  simp only [recordLe, fieldVal] at h
  by_cases hr : r1.rating = r2.rating
  · right
    refine ⟨hr, ?_⟩
    rw [if_pos hr] at h
    by_cases hi : (some (r1.indexedAt : Int)) = (some (r2.indexedAt : Int))
    · simp only [Option.some.injEq, Nat.cast_inj] at hi
      omega
    · rw [if_neg hi, if_pos (by norm_num : (-1 : Int) < 0)] at h
      simp only [optLt, decide_eq_true_eq] at h
      omega
  · left
    rw [if_neg hr, if_neg (by norm_num : ¬((1 : Int) < 0))] at h
    exact h

theorem resolveSortGet_rating (qT : Bool) :
    resolveSortGet "rating" qT = [(.metadataRating, -1), (.fieldIndexedAt, -1)] := by
  cases qT <;> rfl

theorem resolveSortAdvanced_rating (s : AdvSort) (qT : Bool) (hf : s.field = some "rating") :
    resolveSortAdvanced s qT =
      [(.metadataRating, if s.order == some "asc" then 1 else -1), (.fieldIndexedAt, -1)] := by
  have h1 : ((some "rating" : Option String) == some "relevance") = false := by decide
  have h2 : ((some "rating" : Option String) == some "rating") = true := by decide
  simp [resolveSortAdvanced, hf, h1, h2]

/-- C3: with `sortBy = rating` the returned list is non-increasing in
`metadata.rating` (ties broken by `indexedAt` descending); on the advanced
route an explicitly requested ascending order gives the non-decreasing
counterpart, and any other order value gives descending. -/
theorem rating_sort_order (tm : String → SearchRecord → Bool)
    (scoreOf : SearchRecord → Int) (db : List SearchRecord) (p : GetSearchParams)
    (resp : SearchResponse) (b : AdvancedBody) (s : AdvSort) :
    (p.sortBy = some "rating" → handleSearchGet tm scoreOf db p = .ok resp →
      resp.data.Pairwise RatingTieDesc)
    ∧ (b.sort = some s → s.field = some "rating" → s.order = some "asc" →
      (handleSearchAdvanced tm scoreOf db b).data.Pairwise RatingTieAsc)
    ∧ (b.sort = some s → s.field = some "rating" → s.order ≠ some "asc" →
      (handleSearchAdvanced tm scoreOf db b).data.Pairwise RatingTieDesc) := by
  refine ⟨?_, ?_, ?_⟩
  · intro hs hok
    unfold handleSearchGet at hok
    by_cases hv : (!truthy p.q && !truthy p.businessId) = true
    · rw [if_pos hv] at hok
      exact Except.noConfusion hok
    · rw [if_neg hv] at hok
      have h2 := Except.ok.inj hok
      rw [← h2]
      simp only [hs, Option.getD_some, resolveSortGet_rating]
      exact (search_sorted tm scoreOf db p.q (buildGetOptions p) _).imp
        (fun hab => recordLe_ratingDesc hab)
  · intro hb hf ho
    unfold handleSearchAdvanced
    simp only [hb, Option.getD_some, resolveSortAdvanced_rating s _ hf, ho]
    have h1 : ((some "asc" : Option String) == some "asc") = true := by decide
    simp only [h1, if_true]
    exact (search_sorted tm scoreOf db b.query _ _).imp
      (fun hab => recordLe_ratingAsc hab)
  · intro hb hf ho
    unfold handleSearchAdvanced
    have h1 : (s.order == some "asc") = false := beq_eq_false_iff_ne.mpr ho
    simp only [hb, Option.getD_some, resolveSortAdvanced_rating s _ hf, h1, if_false]
    exact (search_sorted tm scoreOf db b.query _ _).imp
      (fun hab => recordLe_ratingDesc hab)

/-- Concrete GET request sorting tenant B1 by rating. -/
def pRatingW : GetSearchParams := { businessId := some "B1", sortBy := some "rating" }

/-- Concrete advanced body requesting ascending rating order. -/
def advAscW : AdvancedBody := { sort := some { field := some "rating", order := some "asc" } }

/-- The concrete response of the GET request above. -/
def respRatingW : SearchResponse :=
  (handleSearchGet tmTrue score0 [recThree, recSub] pRatingW).toOption.getD
    { data := [], count := 0, query := none, filters := {} }

/-- Witness for C3 on a two-record store. -/
theorem rating_sort_order_witness :
    respRatingW.data.Pairwise RatingTieDesc
    ∧ (handleSearchAdvanced tmTrue score0 [recThree, recSub] advAscW).data.Pairwise
        RatingTieAsc :=
  ⟨(rating_sort_order tmTrue score0 [recThree, recSub] pRatingW respRatingW advAscW
      { field := some "rating", order := some "asc" }).1 rfl rfl,
   (rating_sort_order tmTrue score0 [recThree, recSub] pRatingW respRatingW advAscW
      { field := some "rating", order := some "asc" }).2.1 rfl rfl rfl⟩

/-- C8: for every tenant, each entry of the popular-tags aggregation carries
the exact number of occurrences of its tag across the tenants active
records, the entries are ordered by count descending, and in the concrete
scenario — one active record with tag `fast` for tenant B1 — the result
holds `fast` with count 1. -/
theorem popularTags_counts (db : List SearchRecord) (bi : String) (lim : Int) :
    (∀ pr ∈ getPopularTags db bi lim,
      pr.2 = ((db.filter (fun r => r.businessId == bi && r.isActive)).flatMap
        (fun r => r.tags)).count pr.1)
    ∧ (getPopularTags db bi lim).Pairwise (fun pr qr => qr.2 ≤ pr.2)
    ∧ getPopularTags [recSub] "B1" 20 = [("fast", 1)] := by
  refine ⟨?_, ?_, by decide⟩
  · intro pr hpr
    simp only [getPopularTags] at hpr
    have h1 := (List.take_sublist _ _).subset hpr
    have h2 := (List.perm_insertionSort
      (fun pr qr : String × Nat => qr.2 ≤ pr.2) _).subset h1
    obtain ⟨t, _, hpt⟩ := List.mem_map.mp h2
    rw [← hpt]
  · simp only [getPopularTags]
    haveI : IsTotal (String × Nat) (fun pr qr => qr.2 ≤ pr.2) :=
      ⟨fun a b => Nat.le_total b.2 a.2⟩
    haveI : IsTrans (String × Nat) (fun pr qr => qr.2 ≤ pr.2) :=
      ⟨fun _ _ _ h1 h2 => Nat.le_trans h2 h1⟩
    exact (List.sorted_insertionSort _ _).sublist (List.take_sublist _ _)

/-- Witness for C8: the scenario record makes `fast` count exactly its one
occurrence. -/
theorem popularTags_counts_witness :
    (1 : Nat) = (([recSub].filter
      (fun r => r.businessId == "B1" && r.isActive)).flatMap (fun r => r.tags)).count "fast" :=
  (popularTags_counts [recSub] "B1" 20).1 ("fast", 1) (by decide)

/-- C9: when the matching set fits within the limit, the high-rated listing
returns exactly the active records of the tenant whose rating is at least
the minimum; with two records rated 5 and 3 and `minRating = 4`, only the
rating-5 record is returned. -/
theorem contentByRating_spec (db : List SearchRecord) (bi : String) (mn lim : Int) :
    ((db.filter (byRatingFilter bi mn)).length ≤ lim.toNat →
      ∀ r, r ∈ getContentByRating db bi mn lim ↔
        (r ∈ db ∧ r.businessId = bi ∧ r.isActive = true
          ∧ ∃ v, r.rating = some v ∧ mn ≤ v))
    ∧ getContentByRating [recSub, recThree] "B1" 4 20 = [recSub] := by
  refine ⟨?_, by decide⟩
  intro hlen r
  constructor
  · intro hr
    have h2 := List.mem_filter.mp (mem_take_insertionSort hr)
    refine ⟨h2.1, ?_⟩
    have h4 := h2.2
    simp only [byRatingFilter, Bool.and_eq_true, beq_iff_eq] at h4
    obtain ⟨⟨hb, hrt⟩, ha⟩ := h4
    refine ⟨hb, ha, ?_⟩
    cases hrv : r.rating with
    | none => rw [hrv] at hrt; simp at hrt
    | some v =>
      rw [hrv] at hrt
      simp only [decide_eq_true_eq] at hrt
      exact ⟨v, rfl, hrt⟩
  · rintro ⟨hdb, hb, ha, v, hrv, hv⟩
    have hf : byRatingFilter bi mn r = true := by
      simp [byRatingFilter, hb, ha, hrv, hv]
    have h2 : r ∈ db.filter (byRatingFilter bi mn) := List.mem_filter.mpr ⟨hdb, hf⟩
    have h3 : r ∈ List.insertionSort
        (fun r1 r2 => recordLe (fun _ => 0)
          [(.metadataRating, -1), (.fieldIndexedAt, -1)] r1 r2 = true)
        (db.filter (byRatingFilter bi mn)) :=
      (List.perm_insertionSort _ _).mem_iff.mpr h2
    unfold getContentByRating
    rw [List.take_of_length_le]
    · exact h3
    · rw [(List.perm_insertionSort _ _).length_eq]
      exact hlen

/-- Witness for C9: the membership characterization applied to the
rating-5 record of the scenario store. -/
theorem contentByRating_spec_witness :
    recSub ∈ [recSub, recThree] ∧ recSub.businessId = "B1" ∧ recSub.isActive = true
      ∧ ∃ v, recSub.rating = some v ∧ (4 : Int) ≤ v :=
  ((contentByRating_spec [recSub, recThree] "B1" 4 20).1 (by decide) recSub).mp (by decide)

end Keephy
